import Mathlib

/-!
Verification development for the MCP_Host repository (Go).

The development shallowly embeds the data model and the operations of the
repository's newest source snapshot:

  * the connection host (ConnectSSE / ConnectStdio / ConnectInProcess /
    DisconnectServer / EnsureConnection) of host.go,
  * the generate options (DefaultGenerateOption and the option setters),
  * the task parser (taskRegex / extractMCPTasks / containsMCPTasks),
  * the multi-round tool-execution loop (ExecutionState, executeToolsLoop,
    executeTextModeRound, executeFunctionCallRound,
    processMCPTasksWithResults, streamTextModeResults, mergeGenerationInfo,
    ExecuteAndFeedback) of the llm package.

External effects (the transport clients, the LLM, the tool servers) are
modelled as explicit oracle parameters, so every definition is executable.
Ghost fields record the traces (dispatched tool calls, data handed to the
streaming sink) that the temporal claims talk about.

Go's regexp and encoding/json are modelled directly: the task-tag regex
only ever appears in the fixed shape given in taskRegex, whose matching
behaviour on literal tags is the block scan implemented below, and the JSON
decoding is a small recursive-descent parser together with Go's rules for
decoding an object into a struct (unknown fields ignored, missing fields
keep their zero value, null is a no-op).  Whitespace trimming is modelled
on ASCII whitespace, which covers every input considered here.
-/

namespace MCPGo

/-- ASCII model of the whitespace class used by strings.TrimSpace and by
the regex class of whitespace characters. -/
def isSpaceChar (c : Char) : Bool :=
  c = ' ' || c = '\t' || c = '\n' || c = '\r' || c = Char.ofNat 11 || c = Char.ofNat 12

def dropWhileSpace (cs : List Char) : List Char := cs.dropWhile isSpaceChar

/-- Model of strings.TrimSpace on a character list. -/
def trimList (cs : List Char) : List Char :=
  ((cs.dropWhile isSpaceChar).reverse.dropWhile isSpaceChar).reverse

/-- Model of strings.TrimSpace. -/
def trimStr (s : String) : String := ⟨trimList s.data⟩

/-- Does the list start with the given pattern? -/
def startsWithL : List Char → List Char → Bool
  | _, [] => true
  | [], _ :: _ => false
  | c :: cs, p :: ps => c = p && startsWithL cs ps

/-- Model of strings.HasPrefix. -/
def goHasPrefix (s pre : String) : Bool := startsWithL s.data pre.data

/-- Split at the first occurrence of a pattern: returns the part strictly
before the occurrence and the part strictly after it. -/
def splitFirst (pat : List Char) : List Char → Option (List Char × List Char)
  | [] => if startsWithL [] pat then some ([], []) else none
  | c :: cs =>
    if startsWithL (c :: cs) pat then some ([], (c :: cs).drop pat.length)
    else
      match splitFirst pat cs with
      | some (pre, post) => some (c :: pre, post)
      | none => none

/-- Suffix of the list after the last occurrence of the pattern (the whole
list when the pattern does not occur).  Models the strings.LastIndex slice
used to cut off chain-of-thought sections.  Fuel-based recursion; the
callers pass fuel larger than the list length. -/
def afterLastFuel (pat : List Char) : Nat → List Char → List Char
  | 0, s => s
  | fuel + 1, s =>
    match splitFirst pat s with
    | none => s
    | some (_, rest) => afterLastFuel pat fuel rest

def afterLast (pat s : String) : String :=
  ⟨afterLastFuel pat.data (s.length + 1) s.data⟩

def openTagL (tag : String) : List Char := '<' :: (tag.data ++ ['>'])

def closeTagL (tag : String) : List Char := '<' :: '/' :: (tag.data ++ ['>'])

/-- Model of regexp.FindAllStringSubmatch for the task-tag pattern of
taskRegex (dot-matches-newline, lazy body, surrounding whitespace
stripped): repeatedly take the text between the next opening tag and the
earliest closing tag after it, trimmed, and continue after the closing
tag. -/
def extractRawBlocksFuel (openT closeT : List Char) : Nat → List Char → List (List Char)
  | 0, _ => []
  | fuel + 1, s =>
    match splitFirst openT s with
    | none => []
    | some (_, afterOpen) =>
      match splitFirst closeT afterOpen with
      | none => []
      | some (body, rest) => trimList body :: extractRawBlocksFuel openT closeT fuel rest

def extractRawBlocks (content tag : String) : List String :=
  (extractRawBlocksFuel (openTagL tag) (closeTagL tag) (content.length + 1) content.data).map
    (fun l => ⟨l⟩)

/-- Model of taskRegex(tag).MatchString: an opening tag followed somewhere
later by a closing tag. -/
def hasTagBlock (content tag : String) : Bool :=
  match splitFirst (openTagL tag) content.data with
  | none => false
  | some (_, rest) => (splitFirst (closeTagL tag) rest).isSome

/-! JSON values and a model of encoding/json, used by the task parser and
by the function-call argument decoding. -/

inductive Json where
  | null : Json
  | bool (b : Bool) : Json
  | num (n : Int) : Json
  | str (s : String) : Json
  | arr (elems : List Json) : Json
  | obj (fields : List (String × Json)) : Json
deriving Repr, Inhabited

def isDigit (c : Char) : Bool := '0' ≤ c && c ≤ '9'

def digitsToNat (ds : List Char) : Nat :=
  ds.foldl (fun a c => a * 10 + (c.toNat - 48)) 0

/-- Body of a JSON string literal, after the opening quote; returns the
decoded characters and the rest after the closing quote. -/
def parseStringBody : List Char → Option (List Char × List Char)
  | [] => none
  | '"' :: rest => some ([], rest)
  | '\\' :: rest =>
    match rest with
    | [] => none
    | e :: rest2 =>
      let dec : Option Char :=
        if e = 'n' then some '\n'
        else if e = 't' then some '\t'
        else if e = 'r' then some '\r'
        else if e = '"' then some '"'
        else if e = '\\' then some '\\'
        else if e = '/' then some '/'
        else none
      match dec with
      | none => none
      | some c =>
        match parseStringBody rest2 with
        | none => none
        | some (b, r) => some (c :: b, r)
  | c :: rest =>
    match parseStringBody rest with
    | none => none
    | some (b, r) => some (c :: b, r)

mutual

def parseValue : Nat → List Char → Option (Json × List Char)
  | 0, _ => none
  | fuel + 1, cs0 =>
    match dropWhileSpace cs0 with
    | [] => none
    | '{' :: rest => parseFields fuel (dropWhileSpace rest) []
    | '[' :: rest => parseElems fuel (dropWhileSpace rest) []
    | '"' :: rest =>
      match parseStringBody rest with
      | none => none
      | some (b, r) => some (Json.str ⟨b⟩, r)
    | 'n' :: 'u' :: 'l' :: 'l' :: rest => some (Json.null, rest)
    | 't' :: 'r' :: 'u' :: 'e' :: rest => some (Json.bool true, rest)
    | 'f' :: 'a' :: 'l' :: 's' :: 'e' :: rest => some (Json.bool false, rest)
    | '-' :: rest =>
      let ds := rest.takeWhile isDigit
      if ds.isEmpty then none
      else some (Json.num (-(digitsToNat ds : Int)), rest.drop ds.length)
    | c :: rest =>
      if isDigit c then
        let ds := (c :: rest).takeWhile isDigit
        some (Json.num (digitsToNat ds : Int), (c :: rest).drop ds.length)
      else none

def parseFields : Nat → List Char → List (String × Json) → Option (Json × List Char)
  | 0, _, _ => none
  | fuel + 1, cs, acc =>
    match cs with
    | '}' :: rest => some (Json.obj acc.reverse, rest)
    | '"' :: rest =>
      match parseStringBody rest with
      | none => none
      | some (key, r1) =>
        match dropWhileSpace r1 with
        | ':' :: r2 =>
          match parseValue fuel r2 with
          | none => none
          | some (v, r3) =>
            match dropWhileSpace r3 with
            | ',' :: r4 => parseFields fuel (dropWhileSpace r4) (((⟨key⟩ : String), v) :: acc)
            | '}' :: r4 => some (Json.obj (((⟨key⟩ : String), v) :: acc).reverse, r4)
            | _ => none
        | _ => none
    | _ => none

def parseElems : Nat → List Char → List Json → Option (Json × List Char)
  | 0, _, _ => none
  | fuel + 1, cs, acc =>
    match cs with
    | ']' :: rest => some (Json.arr acc.reverse, rest)
    | _ =>
      match parseValue fuel cs with
      | none => none
      | some (v, r1) =>
        match dropWhileSpace r1 with
        | ',' :: r2 => parseElems fuel (dropWhileSpace r2) (v :: acc)
        | ']' :: r2 => some (Json.arr (v :: acc).reverse, r2)
        | _ => none

end

/-- Parse a complete JSON document (one value, optional trailing
whitespace), as json.Unmarshal requires. -/
def parseJson (s : String) : Option Json :=
  match parseValue (s.length + 1) s.data with
  | none => none
  | some (v, rest) => if (dropWhileSpace rest).isEmpty then some v else none

/-- Go decodes duplicate object keys by letting the last one win. -/
def lookupLast (fields : List (String × Json)) (key : String) : Option Json :=
  fields.foldl (fun acc kv => if kv.1 = key then some kv.2 else acc) none

/-! Decoding a JSON document into the Go struct QwenToolCall with
encoding/json semantics: the document must be a JSON object, unknown
fields are ignored, an absent field keeps its zero value, null leaves a
field untouched, and a type mismatch is an error. -/

structure QwenToolCall where
  name : String
  arguments : Option (List (String × Json))
deriving Repr

def unmarshalQwenToolCall (s : String) : Except String QwenToolCall :=
  match parseJson s with
  | none => Except.error "invalid JSON"
  | some (Json.obj fields) =>
    match lookupLast fields "name" with
    | some (Json.str n) => decodeArguments fields n
    | some Json.null => decodeArguments fields ""
    | none => decodeArguments fields ""
    | some _ => Except.error "cannot unmarshal into field name of type string"
  | some _ => Except.error "cannot unmarshal into QwenToolCall"
where
  decodeArguments (fields : List (String × Json)) (n : String) : Except String QwenToolCall :=
    match lookupLast fields "arguments" with
    | some (Json.obj fs) => Except.ok { name := n, arguments := some fs }
    | some Json.null => Except.ok { name := n, arguments := none }
    | none => Except.ok { name := n, arguments := none }
    | some _ => Except.error "cannot unmarshal into field arguments of type map"

/-! The task parser of the newest snapshot. -/

def MCP_DEFAULT_TASK_TAG : String := "MCP_HOST_TASK"

def MCP_DEFAULT_RESULT_TAG : String := "MCP_HOST_RESULT"

/-- MCPTask: one pending tool invocation; text is the raw JSON payload of
the tag block, used as the deduplication key. -/
structure MCPTask where
  server : String
  tool : String
  args : Option (List (String × Json))
  text : String
deriving Repr

/-- Model of strings.Split on the dot separator (structural recursion, so
it reduces definitionally; same behaviour as splitting on a single-byte
separator). -/
def splitOnDotL : List Char → List (List Char)
  | [] => [[]]
  | c :: cs =>
    if c = '.' then [] :: splitOnDotL cs
    else
      match splitOnDotL cs with
      | [] => [[c]]
      | p :: ps => (c :: p) :: ps

def splitOnDot (s : String) : List String := (splitOnDotL s.data).map (fun l => ⟨l⟩)

/-- Result pair of the Go parser, which can return already decoded tasks
together with an error. -/
structure ExtractResult where
  tasks : List MCPTask
  err : Option String
deriving Repr

def extractTasksFromBlocks : List String → List MCPTask → ExtractResult
  | [], acc => ⟨acc.reverse, none⟩
  | b :: bs, acc =>
    match unmarshalQwenToolCall b with
    | Except.error e => ⟨acc.reverse, some e⟩
    | Except.ok tc =>
      match splitOnDot tc.name with
      | [n0, n1] =>
        let task : MCPTask :=
          { server := trimStr n0, tool := trimStr n1, args := tc.arguments, text := b }
        if task.server = "" || task.tool = "" then
          ⟨acc.reverse, some ("invalid tool name " ++ tc.name)⟩
        else
          extractTasksFromBlocks bs (task :: acc)
      | _ => ⟨acc.reverse, some ("invalid tool name " ++ tc.name)⟩

/-- extractMCPTasks: drop everything up to the last closing think tag,
find every tag block, decode each block into QwenToolCall and split its
name on the dot; the first malformed entry stops the scan with an error
(the tasks decoded before it are still returned alongside). -/
def extractMCPTasks (content tag : String) : ExtractResult :=
  let content2 := afterLast "</think>" content
  extractTasksFromBlocks (extractRawBlocks content2 tag) []

/-- Method MCPClient.ExtractMCPTasks: trims the tag and rejects a blank
tag, then runs extractMCPTasks. -/
def clientExtractMCPTasks (content tag : String) : ExtractResult :=
  let tag2 := trimStr tag
  if tag2 = "" then ⟨[], some "blank taskTag"⟩
  else extractMCPTasks content tag2

/-- containsMCPTasks: regex match with the configured tag, falling back to
the hard-coded tag "tools".  It scans the whole content, without the
think-tag cut performed by extractMCPTasks. -/
def containsMCPTasks (content tag : String) : Bool :=
  hasTagBlock content tag || hasTagBlock content "tools"

/-! Work modes and generate options (options.go of the newest snapshot).
The source stores the work mode as the strings "text" and
"function_call"; here it is a two-constructor type. -/

inductive LLMWorkMode where
  | textMode
  | functionCallMode
deriving Repr, DecidableEq

/-- Default system prompt template (prompts.go). -/
def defaultSystemPromptTemplate : String :=
  "You are now an MCP AI assistant with multi-step reasoning and tool execution capabilities.\n"
  ++ "When I give you a task, if you need to call external tools or services, please put your tool call request inside <MCP_HOST_TASK> and </MCP_HOST_TASK> tags.\n"
  ++ "Please strictly use the following format:\n"
  ++ "<MCP_HOST_TASK>\n"
  ++ "\x7b\"server\":\"serverId\", \"tool\":\"toolName\", \"args\":\x7bparameters\x7d\x7d\n"
  ++ "</MCP_HOST_TASK>\n\n"
  ++ "For example, if you need to get the current time from server \"server1\", you should return:\n"
  ++ "<MCP_HOST_TASK>\n"
  ++ "\x7b\"server\":\"server1\", \"tool\":\"get_current_time\", \"args\":\x7b\x7d\x7d\n"
  ++ "</MCP_HOST_TASK>\n\n"
  ++ "You can execute multiple tools in sequence, where each tool's result may inform your next tool selection. Think carefully about the order of tool execution and how to combine their results to solve complex problems.\n\n"
  ++ "For tasks requiring multiple steps:\n"
  ++ "1. First analyze what information you need and which tools would provide that information\n"
  ++ "2. Execute tools in a logical sequence, using the output of one tool to inform the parameters of the next tool\n"
  ++ "3. After receiving all necessary information, synthesize the results into a comprehensive answer\n\n"
  ++ "You should think first and provide your analysis, then suggest using tools. Don't immediately call tools at the beginning of your response.\n\n"
  ++ "IMPORTANT: When you have all the information needed to fully answer the user's question and no further tool calls are required, provide a comprehensive final response that:\n"
  ++ "- Summarizes all the key information you've gathered\n"
  ++ "- Directly answers the user's original question\n"
  ++ "- Presents any relevant insights or conclusions based on the data\n"
  ++ "- Does NOT suggest additional tool calls or mention needing more information if you already have sufficient data\n"
  ++ "- You need to use \"[User Question]\"'s language to answer the question.\n\n"
  ++ "Make sure your response is clear, accurate, and strictly follows the format above."

def defaultToolErrorMessageTemplate : String := "<%s>\nTool %s.%s error: %s\n</%s>"

def defaultToolResultMessageTemplate : String := "<%s>\n%s\n</%s>"

def defaultNextRoundMsgTemplate : String :=
  "BASED ON THE ABOVE DATA, ANALYZE IN ENGLISH. IF THE EXISTING DATA IS INSUFFICIENT TO ANSWER MY PREVIOUS QUESTION, PLEASE CONTINUE TO USE TOOLS TO OBTAIN THE MISSING DATA."

def defaultFinalResultMsgTemplate : String :=
  "Based on these results, use no more tools and give me the final answer."

/-- GenerateOptions: the MCP-relevant slice of the options record.  The
pass-through LLM knobs (model, temperature, penalties, and so on) are
omitted: no claim depends on them and they are forwarded untouched.  The
two callback fields are modelled by presence flags; their effects are
recorded on the execution traces. -/
structure GenerateOptions where
  mcpWorkMode : LLMWorkMode
  mcpAutoExecute : Bool
  mcpTaskTag : String
  mcpResultTag : String
  mcpDisabledTools : List String
  mcpMaxToolExecutionRounds : Int
  hasStreamingFunc : Bool
  hasStateNotifyFunc : Bool
  enableDebug : Bool
  disableTips : Bool
  systemPromptTemplate : String
  toolErrorMsgTemplate : String
  toolResultMsgTemplate : String
  nextRoundMsgTemplate : String
  finalResultMsgTemplate : String
deriving Repr, DecidableEq

/-- A GenerateOption mutates the options record, as in the source. -/
def GenerateOption : Type := GenerateOptions → GenerateOptions

def WithMCPWorkMode (mode : LLMWorkMode) : GenerateOption :=
  fun o => { o with mcpWorkMode := mode }

def WithMCPAutoExecute (autoExecute : Bool) : GenerateOption :=
  fun o => { o with mcpAutoExecute := autoExecute }

def WithMCPTaskTag (tag : String) : GenerateOption :=
  fun o => { o with mcpTaskTag := tag }

def WithMCPResultTag (tag : String) : GenerateOption :=
  fun o => { o with mcpResultTag := tag }

def WithMCPDisabledTools (disabledTools : List String) : GenerateOption :=
  fun o => { o with mcpDisabledTools := disabledTools }

/-- WithMCPMaxToolExecutionRounds only stores a positive round count. -/
def WithMCPMaxToolExecutionRounds (rounds : Int) : GenerateOption :=
  fun o => if rounds > 0 then { o with mcpMaxToolExecutionRounds := rounds } else o

def WithStreamingFunc : GenerateOption :=
  fun o => { o with hasStreamingFunc := true }

def WithStateNotifyFunc : GenerateOption :=
  fun o => { o with hasStateNotifyFunc := true }

/-- DefaultGenerateOption of the newest snapshot. -/
def DefaultGenerateOption : GenerateOptions :=
  { mcpWorkMode := LLMWorkMode.textMode
    mcpAutoExecute := false
    mcpTaskTag := MCP_DEFAULT_TASK_TAG
    mcpResultTag := MCP_DEFAULT_RESULT_TAG
    mcpDisabledTools := []
    mcpMaxToolExecutionRounds := 5
    hasStreamingFunc := false
    hasStateNotifyFunc := false
    enableDebug := false
    disableTips := false
    systemPromptTemplate := defaultSystemPromptTemplate
    toolErrorMsgTemplate := defaultToolErrorMessageTemplate
    toolResultMsgTemplate := defaultToolResultMessageTemplate
    nextRoundMsgTemplate := defaultNextRoundMsgTemplate
    finalResultMsgTemplate := defaultFinalResultMsgTemplate }

def applyOptions (base : GenerateOptions) (options : List GenerateOption) : GenerateOptions :=
  options.foldl (fun o f => f o) base

/-- prepareOptions: start from the defaults and apply the caller options in
order. -/
def prepareOptions (options : List GenerateOption) : GenerateOptions :=
  applyOptions DefaultGenerateOption options

/-- The guard at the top of executeToolsLoop (and of NewExecutionState): a
non-positive round budget is replaced by 3. -/
def effectiveMaxRounds (o : GenerateOptions) : Nat :=
  if o.mcpMaxToolExecutionRounds ≤ 0 then 3 else o.mcpMaxToolExecutionRounds.toNat

/-! The connection host (host.go).  Transport behaviour (client creation,
Start, the initialize handshake, Ping) is external I/O and is passed in as
an explicit outcome; transport clients are identified by a number so that
Close calls can be recorded on an event trace. -/

inductive ConnectionType where
  | sse
  | stdio
  | inProcess
deriving Repr, DecidableEq

structure ServerConnection where
  type : ConnectionType
  client : Nat
  serverID : String
  options : List String
  baseURL : String
  serverInfo : String
  connected : Bool
deriving Repr, DecidableEq

structure MCPHost where
  connections : List (String × ServerConnection)
deriving Repr, DecidableEq

def NewMCPHost : MCPHost := ⟨[]⟩

def lookupConn (h : MCPHost) (serverID : String) : Option ServerConnection :=
  (h.connections.find? (fun kv => kv.1 = serverID)).map (fun kv => kv.2)

/-- Close calls issued on transport clients. -/
inductive HostEvent where
  | closed (client : Nat)
deriving Repr, DecidableEq

/-- Outcome of building a transport that has a Start step (SSE and
in-process): creation can fail before a client exists; Start and the
initialize handshake can fail afterwards. -/
inductive TransportOutcome where
  | createErr (msg : String)
  | startErr (client : Nat) (msg : String)
  | handshakeErr (client : Nat) (msg : String)
  | ok (client : Nat) (info : String)
deriving Repr, DecidableEq

/-- Outcome of building a stdio transport, which has no Start step. -/
inductive StdioTransportOutcome where
  | createErr (msg : String)
  | handshakeErr (client : Nat) (msg : String)
  | ok (client : Nat) (info : String)
deriving Repr, DecidableEq

structure ConnectResult where
  host : MCPHost
  result : Except String ServerConnection
  events : List HostEvent
deriving Repr

/-- ConnectSSE: refuse a registered id, then create, start and initialize
the client (closing it on either later failure), and register the session. -/
def ConnectSSE (h : MCPHost) (serverID baseURL : String) (options : List String)
    (transport : TransportOutcome) : ConnectResult :=
  if (lookupConn h serverID).isSome then
    ⟨h, Except.error ("connection with ID " ++ serverID ++ " already exists"), []⟩
  else
    match transport with
    | TransportOutcome.createErr msg =>
      ⟨h, Except.error ("failed to create SSE client: " ++ msg), []⟩
    | TransportOutcome.startErr client msg =>
      ⟨h, Except.error ("failed to start client: " ++ msg), [HostEvent.closed client]⟩
    | TransportOutcome.handshakeErr client msg =>
      ⟨h, Except.error ("failed to initialize connection: " ++ msg), [HostEvent.closed client]⟩
    | TransportOutcome.ok client info =>
      let conn : ServerConnection :=
        { type := ConnectionType.sse, client := client, serverID := serverID,
          options := options, baseURL := baseURL, serverInfo := info, connected := true }
      ⟨⟨h.connections ++ [(serverID, conn)]⟩, Except.ok conn, []⟩

/-- ConnectStdio: same shape without the Start step; the session stores no
base URL and no options. -/
def ConnectStdio (h : MCPHost) (serverID : String)
    (transport : StdioTransportOutcome) : ConnectResult :=
  if (lookupConn h serverID).isSome then
    ⟨h, Except.error ("connection with ID " ++ serverID ++ " already exists"), []⟩
  else
    match transport with
    | StdioTransportOutcome.createErr msg =>
      ⟨h, Except.error ("failed to create stdio client: " ++ msg), []⟩
    | StdioTransportOutcome.handshakeErr client msg =>
      ⟨h, Except.error ("failed to initialize connection: " ++ msg), [HostEvent.closed client]⟩
    | StdioTransportOutcome.ok client info =>
      let conn : ServerConnection :=
        { type := ConnectionType.stdio, client := client, serverID := serverID,
          options := [], baseURL := "", serverInfo := info, connected := true }
      ⟨⟨h.connections ++ [(serverID, conn)]⟩, Except.ok conn, []⟩

/-- ConnectInProcess: like SSE (it has a Start step) but wrapping an
in-process server; no base URL and no options are stored. -/
def ConnectInProcess (h : MCPHost) (serverID : String)
    (transport : TransportOutcome) : ConnectResult :=
  if (lookupConn h serverID).isSome then
    ⟨h, Except.error ("connection with ID " ++ serverID ++ " already exists"), []⟩
  else
    match transport with
    | TransportOutcome.createErr msg =>
      ⟨h, Except.error ("failed to create in-process client: " ++ msg), []⟩
    | TransportOutcome.startErr client msg =>
      ⟨h, Except.error ("failed to start client: " ++ msg), [HostEvent.closed client]⟩
    | TransportOutcome.handshakeErr client msg =>
      ⟨h, Except.error ("failed to initialize connection: " ++ msg), [HostEvent.closed client]⟩
    | TransportOutcome.ok client info =>
      let conn : ServerConnection :=
        { type := ConnectionType.inProcess, client := client, serverID := serverID,
          options := [], baseURL := "", serverInfo := info, connected := true }
      ⟨⟨h.connections ++ [(serverID, conn)]⟩, Except.ok conn, []⟩

/-- DisconnectServer: close the transport, remove the session from the
registry and mark it disconnected.  The Close error is modelled as
absent (no claim involves it). -/
def removeConn (l : List (String × ServerConnection)) (serverID : String) :
    List (String × ServerConnection) :=
  l.filter (fun kv => kv.1 ≠ serverID)

def DisconnectServer (h : MCPHost) (serverID : String) :
    MCPHost × Except String Unit × List HostEvent :=
  match lookupConn h serverID with
  | none => (h, Except.error ("no connection found with ID " ++ serverID), [])
  | some conn =>
    (⟨removeConn h.connections serverID⟩, Except.ok (),
      [HostEvent.closed conn.client])

/-- Result of a transport Ping. -/
inductive PingOutcome where
  | ok
  | fail (msg : String)
deriving Repr, DecidableEq

/-- EnsureConnection: look the session up and ping it.  On ping failure
the session is disconnected; an SSE session is then reconnected under the
same id with the stored URL and options (a reconnect failure surfaces a
reconnect error); for any other transport kind the function falls out of
the switch and returns the now stale session object with no error. -/
def EnsureConnection (h : MCPHost) (serverID : String) (ping : PingOutcome)
    (reconnect : TransportOutcome) :
    MCPHost × Except String ServerConnection × List HostEvent :=
  match lookupConn h serverID with
  | none => (h, Except.error ("no connection found with ID " ++ serverID), [])
  | some conn =>
    match ping with
    | PingOutcome.ok => (h, Except.ok conn, [])
    | PingOutcome.fail _ =>
      let d := DisconnectServer h serverID
      let connStale := { conn with connected := false }
      match conn.type with
      | ConnectionType.sse =>
        let r := ConnectSSE d.1 conn.serverID conn.baseURL conn.options reconnect
        match r.result with
        | Except.ok conn2 => (r.host, Except.ok conn2, d.2.2 ++ r.events)
        | Except.error _ =>
          (r.host, Except.error ("can not reconnect with ID " ++ serverID), d.2.2 ++ r.events)
      | _ => (d.1, Except.ok connStale, d.2.2)

/-! The tool catalog (createMCPTools).  ListTools is a per-server oracle;
a server whose ListTools fails is skipped.  The registry iteration order
is the given id list (Go map iteration is unordered; the claims proved
here hold for every order). -/

structure MCPToolDef where
  name : String
  description : String
  inputSchema : Json
deriving Repr

structure FunctionDefinition where
  name : String
  description : String
  parameters : Json
deriving Repr

structure Tool where
  type : String
  function : FunctionDefinition
deriving Repr

def createMCPTools (serverIDs : List String)
    (listTools : String → Except String (List MCPToolDef))
    (disabledTools : List String) : List Tool :=
  serverIDs.foldl
    (fun acc serverID =>
      match listTools serverID with
      | Except.error _ => acc
      | Except.ok ts =>
        acc ++ ts.filterMap (fun t =>
          let toolFullName := serverID ++ "." ++ t.name
          if disabledTools.contains toolFullName then none
          else
            some { type := "function",
                   function :=
                     { name := toolFullName,
                       description := "[Server: " ++ serverID ++ "] " ++ t.description,
                       parameters := t.inputSchema } }))
    []

/-! The multi-round execution loop (mcp_execution.go of the newest
snapshot).  The LLM and Host.ExecuteTool are oracles: the script maps the
round number of each intermediate or final LLM call to either an error or
the generation produced together with the chunks streamed during that
call; the execute oracle maps a dispatched call to its outcome.  Ghost
fields (dispatchTrace, sinkTrace, roundResults) record the events the
temporal claims quantify over; they influence nothing. -/

structure ToolCall where
  id : String
  functionName : String
  arguments : String
deriving Repr, DecidableEq

structure TaskResult where
  task : MCPTask
  result : Option Json
  error : String
deriving Repr

inductive GenInfoVal where
  | str (s : String)
  | num (n : Int)
  | json (j : Json)
  | taskResults (rs : List TaskResult)
deriving Repr

def GenInfoVal.toJsonOpt : GenInfoVal → Option Json
  | GenInfoVal.json j => some j
  | GenInfoVal.str s => some (Json.str s)
  | GenInfoVal.num n => some (Json.num n)
  | GenInfoVal.taskResults _ => none

/-- The slice of Generation the loop reads and writes.  The message list,
usage counters and other pass-through fields are omitted (no claim
depends on them). -/
structure Generation where
  content : String
  toolCalls : List ToolCall
  generationInfo : List (String × GenInfoVal)
  mcpWorkMode : LLMWorkMode
  mcpTaskTag : String
  mcpResultTag : String
  mcpSystemPrompt : String
deriving Repr

/-- GenerationInfo is a Go map; the association list keeps one entry per
key. -/
def getInfo (info : List (String × GenInfoVal)) (k : String) : Option GenInfoVal :=
  (info.find? (fun kv => kv.1 = k)).map (fun kv => kv.2)

def setInfo (info : List (String × GenInfoVal)) (k : String) (v : GenInfoVal) :
    List (String × GenInfoVal) :=
  if (info.find? (fun kv => kv.1 = k)).isSome then
    info.map (fun kv => if kv.1 = k then (k, v) else kv)
  else info ++ [(k, v)]

structure MCPToolExecutionResult where
  server : String
  tool : String
  args : Option (List (String × Json))
  status : String
  result : Option Json
  error : String
  id : String
deriving Repr

/-- What one invocation of the caller streaming sink receives: either a
text chunk or one batch of structured tool results. -/
inductive SinkEvent where
  | chunk (s : String)
  | results (rs : List MCPToolExecutionResult)
deriving Repr

/-- One Host.ExecuteTool invocation, as issued by the loop. -/
structure DispatchCall where
  server : String
  tool : String
  args : Option (List (String × Json))
deriving Repr

inductive TaskOutcome where
  | ok (content : Json)
  | err (msg : String)
deriving Repr

def ExecOracle : Type := DispatchCall → TaskOutcome

def LLMScript : Type := Nat → Except String (Generation × List String)

structure ExecutionState where
  gen : Generation
  opts : GenerateOptions
  allTaskResults : List TaskResult
  executionRound : Nat
  capturedOutput : String
  currentGen : Generation
  dispatchTrace : List DispatchCall
  sinkTrace : List SinkEvent
  roundResults : List (Nat × List TaskResult)
deriving Repr

/-- NewExecutionState: the captured-output buffer starts with the content
of the initial generation; currentGen aliases gen. -/
def NewExecutionState (gen : Generation) (opts : GenerateOptions) : ExecutionState :=
  { gen := gen, opts := opts, allTaskResults := [], executionRound := 0,
    capturedOutput := gen.content, currentGen := gen,
    dispatchTrace := [], sinkTrace := [], roundResults := [] }

def hasToolCalls (gen : Generation) : Bool :=
  (gen.mcpWorkMode == LLMWorkMode.textMode && containsMCPTasks gen.content gen.mcpTaskTag)
    || (gen.mcpWorkMode == LLMWorkMode.functionCallMode && !gen.toolCalls.isEmpty)

def mkTaskResult (task : MCPTask) (outcome : TaskOutcome) : TaskResult :=
  match outcome with
  | TaskOutcome.err msg => { task := task, result := none, error := msg }
  | TaskOutcome.ok content => { task := task, result := some content, error := "" }

/-- The task loop of processMCPTasksWithResults: a task whose text is in
the executed-text map is skipped, every other task is dispatched and its
outcome recorded. -/
def runTasks (host : ExecOracle) (executedTexts : List String) :
    List MCPTask → List TaskResult
  | [] => []
  | task :: rest =>
    if executedTexts.contains task.text then runTasks host executedTexts rest
    else
      mkTaskResult task (host ⟨task.server, task.tool, task.args⟩)
        :: runTasks host executedTexts rest

structure ProcessOut where
  tasks : List MCPTask
  results : List TaskResult
  err : Option String
deriving Repr

/-- processMCPTasksWithResults: extract with the configured tag (default
when blank) and with the hard-coded fallback tag, abort on a parse error,
then run the deduplicated tasks. -/
def processMCPTasksWithResults (host : ExecOracle) (ledger : List TaskResult)
    (content : String) (optTag : String) : ProcessOut :=
  let tag := if optTag ≠ "" then optTag else MCP_DEFAULT_TASK_TAG
  let executedTexts := ledger.map (fun tr => tr.task.text)
  let r1 := clientExtractMCPTasks content tag
  match r1.err with
  | some e => ⟨r1.tasks, [], some e⟩
  | none =>
    let r2 := clientExtractMCPTasks content "tools"
    match r2.err with
    | some e => ⟨r1.tasks, [], some e⟩
    | none =>
      let tasks := r1.tasks ++ r2.tasks
      if tasks.isEmpty then ⟨tasks, [], none⟩
      else ⟨tasks, runTasks host executedTexts tasks, none⟩

def createToolExecutionResult (result : TaskResult) : MCPToolExecutionResult :=
  if result.error ≠ "" then
    { server := result.task.server, tool := result.task.tool, args := result.task.args,
      status := "error", result := none, error := result.error, id := "" }
  else
    { server := result.task.server, tool := result.task.tool, args := result.task.args,
      status := "success", result := result.result, error := "", id := "" }

/-- streamTextModeResults: write the opening result-tag marker to the
captured-output buffer and hand the sink one batch of structured results
(the batch itself never enters the buffer). -/
def streamTextModeResults (st : ExecutionState) (results : List TaskResult) : ExecutionState :=
  let resultInfos := results.map createToolExecutionResult
  if resultInfos.isEmpty then st
  else
    { st with
      capturedOutput := st.capturedOutput ++ "<" ++ st.currentGen.mcpResultTag ++ ">",
      sinkTrace := st.sinkTrace ++ [SinkEvent.results resultInfos] }

def executeTextModeRound (host : ExecOracle) (st : ExecutionState) :
    Except String (Bool × ExecutionState) :=
  let p := processMCPTasksWithResults host st.allTaskResults st.currentGen.content
    st.opts.mcpTaskTag
  match p.err with
  | some e => Except.error e
  | none =>
    if p.tasks.isEmpty && p.results.isEmpty then Except.ok (false, st)
    else
      let st1 := { st with
        allTaskResults := st.allTaskResults ++ p.results,
        dispatchTrace := st.dispatchTrace
          ++ p.results.map (fun r => (⟨r.task.server, r.task.tool, r.task.args⟩ : DispatchCall)),
        roundResults := st.roundResults ++ [(st.executionRound, p.results)] }
      let st2 := if st.opts.hasStreamingFunc then streamTextModeResults st1 p.results else st1
      Except.ok (true, st2)

/-- Model of decoding a native tool-call argument string into a Go
map, with encoding/json semantics (null gives a nil map). -/
def decodeArgsMap (s : String) : Except String (Option (List (String × Json))) :=
  match parseJson s with
  | none => Except.error "invalid JSON"
  | some (Json.obj fs) => Except.ok (some fs)
  | some Json.null => Except.ok none
  | some _ => Except.error "cannot unmarshal into map"

/-- processToolCalls: execute every native tool call whose name has
exactly two dot-separated components and whose arguments decode, storing
each outcome in generationInfo under a per-id key. -/
def processToolCalls (host : ExecOracle) (gen : Generation) :
    Generation × List DispatchCall :=
  gen.toolCalls.foldl
    (fun (acc : Generation × List DispatchCall) call =>
      match splitOnDot call.functionName with
      | [serverID, toolName] =>
        match decodeArgsMap call.arguments with
        | Except.error _ => acc
        | Except.ok args =>
          let dc : DispatchCall := ⟨serverID, toolName, args⟩
          match host dc with
          | TaskOutcome.err msg =>
            let info := setInfo acc.1.generationInfo ("tool_error_" ++ call.id) (GenInfoVal.str msg)
            ({ acc.1 with generationInfo := info }, acc.2 ++ [dc])
          | TaskOutcome.ok content =>
            let info := setInfo acc.1.generationInfo ("tool_result_" ++ call.id) (GenInfoVal.json content)
            ({ acc.1 with generationInfo := info }, acc.2 ++ [dc])
      | _ => acc)
    (gen, [])

/-- parseToolCall: split the qualified function name (an unqualified name
gets the pseudo-server "unknown") and decode the arguments, ignoring a
decode error. -/
def parseToolCall (call : ToolCall) : String × String × Option (List (String × Json)) :=
  let (serverID, toolName) :=
    match splitOnDot call.functionName with
    | [a, b] => (a, b)
    | _ => ("unknown", call.functionName)
  let args :=
    match decodeArgsMap call.arguments with
    | Except.ok a => a
    | Except.error _ => none
  (serverID, toolName, args)

def fillToolCallResult (gen : Generation) (resultInfo : MCPToolExecutionResult) :
    MCPToolExecutionResult :=
  match getInfo gen.generationInfo ("tool_error_" ++ resultInfo.id) with
  | some (GenInfoVal.str errStr) =>
    if errStr ≠ "" then { resultInfo with status := "error", error := errStr }
    else fillFromResultKey gen resultInfo
  | _ => fillFromResultKey gen resultInfo
where
  fillFromResultKey (gen : Generation) (resultInfo : MCPToolExecutionResult) :
      MCPToolExecutionResult :=
    match getInfo gen.generationInfo ("tool_result_" ++ resultInfo.id) with
    | some v => { resultInfo with status := "success", result := v.toJsonOpt }
    | none => resultInfo

def streamFunctionCallResults (st : ExecutionState) : ExecutionState :=
  let resultInfos := st.currentGen.toolCalls.map (fun call =>
    let p := parseToolCall call
    fillToolCallResult st.currentGen
      { server := p.1, tool := p.2.1, args := p.2.2, status := "",
        result := none, error := "", id := call.id })
  if resultInfos.isEmpty then st
  else
    { st with
      capturedOutput := st.capturedOutput ++ "<" ++ st.currentGen.mcpResultTag ++ ">",
      sinkTrace := st.sinkTrace ++ [SinkEvent.results resultInfos] }

/-- executeFunctionCallRound.  In the source gen and currentGen alias the
same object until prepareNextRound replaces currentGen, which is exactly
while executionRound is 1; the embedding mirrors the aliasing by copying
the updated generation into gen in that case (mergeGenerationInfo reads
gen). -/
def executeFunctionCallRound (host : ExecOracle) (st : ExecutionState) :
    Except String (Bool × ExecutionState) :=
  let pr := processToolCalls host st.currentGen
  let st1 := { st with
    currentGen := pr.1,
    gen := if st.executionRound = 1 then pr.1 else st.gen,
    dispatchTrace := st.dispatchTrace ++ pr.2 }
  if pr.1.toolCalls.isEmpty then Except.ok (false, st1)
  else
    let st2 := if st1.opts.hasStreamingFunc then streamFunctionCallResults st1 else st1
    Except.ok (true, st2)

def executeRound (host : ExecOracle) (st : ExecutionState) :
    Except String (Bool × ExecutionState) :=
  if st.currentGen.mcpWorkMode == LLMWorkMode.textMode then executeTextModeRound host st
  else executeFunctionCallRound host st

/-- The chunks an intermediate LLM call streams are appended to the
captured-output buffer and forwarded to the sink by the wrapping stream
function — only when the caller registered a sink. -/
def recordStreamChunks (st : ExecutionState) (chunks : List String) : ExecutionState :=
  if st.opts.hasStreamingFunc then
    { st with capturedOutput := st.capturedOutput ++ String.join chunks,
              sinkTrace := st.sinkTrace ++ chunks.map SinkEvent.chunk }
  else st

/-- The mode and tag metadata copied onto every intermediate generation. -/
def tagGeneration (base g : Generation) : Generation :=
  { g with mcpWorkMode := base.mcpWorkMode, mcpTaskTag := base.mcpTaskTag,
           mcpResultTag := base.mcpResultTag, mcpSystemPrompt := base.mcpSystemPrompt }

def prepareNextRound (script : LLMScript) (st : ExecutionState) :
    Except String ExecutionState :=
  match script st.executionRound with
  | Except.error e => Except.error e
  | Except.ok (nextGen, chunks) =>
    let st1 := recordStreamChunks st chunks
    Except.ok { st1 with currentGen := tagGeneration st1.gen nextGen }

/-- getFinalResult: one more LLM call, whose content is also appended to
the captured-output buffer after the call returns (so with a sink the
final content enters the buffer a second time, after its streamed
chunks). -/
def getFinalResult (script : LLMScript) (st : ExecutionState) :
    Except String ExecutionState :=
  match script st.executionRound with
  | Except.error e => Except.error e
  | Except.ok (nextGen, chunks) =>
    let st1 := recordStreamChunks st chunks
    let st2 := { st1 with currentGen := tagGeneration st1.gen nextGen }
    Except.ok { st2 with capturedOutput := st2.capturedOutput ++ nextGen.content }

/-- The while loop of executeToolsLoop, with the remaining iteration count
as fuel: the round counter grows by one per iteration and the loop runs
only while it is below maxRounds, so a fuel of maxRounds + 1 never runs
out before the guard fails. -/
def executeToolsLoopGo (script : LLMScript) (host : ExecOracle) (maxRounds : Nat) :
    Nat → ExecutionState → Except String ExecutionState
  | 0, st => Except.ok st
  | fuel + 1, st =>
    if st.executionRound < maxRounds then
      let st1 := { st with executionRound := st.executionRound + 1 }
      match executeRound host st1 with
      | Except.error e => Except.error e
      | Except.ok (hasExecutedTools, st2) =>
        if !hasExecutedTools then Except.ok st2
        else if maxRounds ≤ st2.executionRound then getFinalResult script st2
        else
          match prepareNextRound script st2 with
          | Except.error e => Except.error e
          | Except.ok st3 => executeToolsLoopGo script host maxRounds fuel st3
    else Except.ok st

def executeToolsLoop (script : LLMScript) (host : ExecOracle) (st : ExecutionState) :
    Except String ExecutionState :=
  let maxRounds := effectiveMaxRounds st.opts
  executeToolsLoopGo script host maxRounds (maxRounds + 1) st

/-- mergeGenerationInfo: with a non-empty ledger, store it under
mcp_task_results and the round counter under mcp_execution_rounds;
otherwise copy the per-id tool keys of the initial generation. -/
def mergeGenerationInfo (finalGen : Generation) (st : ExecutionState) : Generation :=
  if !st.allTaskResults.isEmpty then
    let info1 := setInfo finalGen.generationInfo "mcp_task_results"
      (GenInfoVal.taskResults st.allTaskResults)
    let info2 := setInfo info1 "mcp_execution_rounds" (GenInfoVal.num st.executionRound)
    { finalGen with generationInfo := info2 }
  else
    let copied := st.gen.generationInfo.filter (fun kv =>
      goHasPrefix kv.1 "tool_result_" || goHasPrefix kv.1 "tool_error_")
    { finalGen with generationInfo := finalGen.generationInfo ++ copied }

structure RunResult where
  finalGen : Generation
  state : ExecutionState
deriving Repr

/-- ExecuteAndFeedback of the newest snapshot: run the loop, then build
the final generation from the metadata of the initial one and the merged
generation info.  The struct literal sets no Content, so the content of
the returned generation is the Go zero value, the empty string; the
captured-output buffer is never read.  The returned ghost state carries
the traces. -/
def ExecuteAndFeedback (script : LLMScript) (host : ExecOracle)
    (gen : Generation) (opts : GenerateOptions) : Except String RunResult :=
  if !hasToolCalls gen then
    Except.ok { finalGen := gen, state := NewExecutionState gen opts }
  else
    match executeToolsLoop script host (NewExecutionState gen opts) with
    | Except.error e => Except.error e
    | Except.ok st2 =>
      let finalGen : Generation :=
        { content := "",
          toolCalls := [],
          generationInfo := [],
          mcpWorkMode := st2.gen.mcpWorkMode,
          mcpTaskTag := st2.gen.mcpTaskTag,
          mcpResultTag := st2.gen.mcpResultTag,
          mcpSystemPrompt := st2.gen.mcpSystemPrompt }
      Except.ok { finalGen := mergeGenerationInfo finalGen st2, state := st2 }

/-! Concrete fixtures: scripted runs used to evaluate the embedded code on
explicit inputs. -/

/-- A text-mode generation with the default tags and the given content. -/
def mkGen (content : String) : Generation :=
  { content := content, toolCalls := [], generationInfo := [],
    mcpWorkMode := LLMWorkMode.textMode, mcpTaskTag := MCP_DEFAULT_TASK_TAG,
    mcpResultTag := MCP_DEFAULT_RESULT_TAG, mcpSystemPrompt := "sys" }

/-- A host on which every tool call succeeds with a fixed string result. -/
def hostAlwaysOk : ExecOracle := fun _ => TaskOutcome.ok (Json.str "noon")

/-- A host on which every tool call fails. -/
def hostAlwaysErr : ExecOracle := fun _ => TaskOutcome.err "boom"

/-- An LLM script that always answers with plain text and streams it as
one chunk. -/
def scriptPlain (answer : String) : LLMScript := fun _ => Except.ok (mkGen answer, [answer])

def taskTextX : String := "\x7b\"name\":\"s1.t1\",\"arguments\":\x7b\x7d\x7d"

def taskTextY : String := "\x7b\"name\":\"s1.t2\",\"arguments\":\x7b\x7d\x7d"

def taskBlock (body : String) : String := "<MCP_HOST_TASK>" ++ body ++ "</MCP_HOST_TASK>"

/-- C1 fixture: a streamed auto-execute text-mode run whose first
generation holds one task and whose second generation is the plain
answer B. -/
def genC1 : Generation := mkGen ("A" ++ taskBlock taskTextX)

def optsAutoStream : GenerateOptions :=
  applyOptions DefaultGenerateOption [WithMCPAutoExecute true, WithStreamingFunc]

def scriptB : LLMScript := fun _ => Except.ok (mkGen "B", ["B"])

def runC1 : RunResult :=
  match ExecuteAndFeedback scriptB hostAlwaysOk genC1 optsAutoStream with
  | Except.ok r => r
  | Except.error _ => { finalGen := genC1, state := NewExecutionState genC1 optsAutoStream }

/-- C4 fixture: round 1 executes task X; the second generation repeats X
and adds task Y, so round 2 must skip X and dispatch only Y; the third
generation holds no task. -/
def optsAuto : GenerateOptions := applyOptions DefaultGenerateOption [WithMCPAutoExecute true]

def genC4 : Generation := mkGen (taskBlock taskTextX)

def scriptC4 : LLMScript := fun round =>
  if round = 1 then Except.ok (mkGen (taskBlock taskTextX ++ taskBlock taskTextY), [])
  else Except.ok (mkGen "done", [])

def runC4 : RunResult :=
  match ExecuteAndFeedback scriptC4 hostAlwaysOk genC4 optsAuto with
  | Except.ok r => r
  | Except.error _ => { finalGen := genC4, state := NewExecutionState genC4 optsAuto }

/-- C8 fixture: the task block lies before a closing think tag, so
containsMCPTasks sees it but extractMCPTasks (which cuts at the last
closing think tag) does not. -/
def genC8 : Generation := mkGen (taskBlock taskTextX ++ "</think>done")

def optsC8 : GenerateOptions :=
  applyOptions DefaultGenerateOption [WithMCPAutoExecute true, WithMCPMaxToolExecutionRounds 2]

def runC8 : RunResult :=
  match ExecuteAndFeedback (scriptPlain "x") hostAlwaysOk genC8 optsC8 with
  | Except.ok r => r
  | Except.error _ => { finalGen := genC8, state := NewExecutionState genC8 optsC8 }

/-- C2 fixture: the model emits a task naming the disabled tool s1.t1. -/
def optsC2 : GenerateOptions :=
  applyOptions DefaultGenerateOption
    [WithMCPAutoExecute true, WithMCPDisabledTools ["s1.t1"]]

def runC2 : RunResult :=
  match ExecuteAndFeedback (scriptPlain "done") hostAlwaysOk genC4 optsC2 with
  | Except.ok r => r
  | Except.error _ => { finalGen := genC4, state := NewExecutionState genC4 optsC2 }

/-- C5 fixture: a well-formed entry followed by an entry whose body is not
JSON. -/
def contentC5 : String := taskBlock taskTextX ++ taskBlock "oops"

def stC5 : ExecutionState := NewExecutionState (mkGen contentC5) optsAuto

/-- C6 fixture: the two documented task shapes. -/
def contentMCPForm : String :=
  taskBlock "\x7b\"server\":\"srv1\",\"tool\":\"get_current_time\",\"args\":\x7b\x7d\x7d"

def contentQwenForm : String :=
  taskBlock "\x7b\"name\":\"srv1.get_current_time\",\"arguments\":\x7b\x7d\x7d"

/-- C9 fixture: one task dispatched on the always-failing host. -/
def resultsC9 : List TaskResult :=
  (processMCPTasksWithResults hostAlwaysErr [] (taskBlock taskTextX) "MCP_HOST_TASK").results

/-- Host fixtures for the connection claims. -/
def connStdio1 : ServerConnection :=
  { type := ConnectionType.stdio, client := 7, serverID := "srv1", options := [],
    baseURL := "", serverInfo := "info", connected := true }

def connSSE1 : ServerConnection :=
  { type := ConnectionType.sse, client := 3, serverID := "srv2",
    options := ["opt"], baseURL := "http://mcp", serverInfo := "info", connected := true }

def hostStdio1 : MCPHost := ⟨[("srv1", connStdio1)]⟩

def hostSSE1 : MCPHost := ⟨[("srv2", connSSE1)]⟩

/-- The first task result on the always-failing host. -/
def trC9 : TaskResult :=
  { task := { server := "s1", tool := "t1", args := some [], text := taskTextX },
    result := none, error := "boom" }

/-- Does a transport outcome provide a working client? -/
def transportOk : TransportOutcome → Bool
  | TransportOutcome.ok _ _ => true
  | _ => false

/-- Options with a non-positive round budget stored (reachable through
WithOptions or a zero value). -/
def optsNeg : GenerateOptions :=
  { DefaultGenerateOption with mcpMaxToolExecutionRounds := -2 }

/-- Catalog fixture: one server with two tools, the first of which is
disabled. -/
def listToolsFix : String → Except String (List MCPToolDef) := fun _ =>
  Except.ok [⟨"t1", "first", Json.null⟩, ⟨"t2", "second", Json.null⟩]

def catalogToolT2 : Tool :=
  { type := "function",
    function := { name := "s1.t2", description := "[Server: s1] second", parameters := Json.null } }

/-! Predicates used by the loop theorems. -/

/-- Round results of distinct rounds never repeat a task text. -/
def RoundsDedup (rr : List (Nat × List TaskResult)) : Prop :=
  rr.Pairwise (fun a b => ∀ u ∈ a.2, ∀ t ∈ b.2, t.task.text ≠ u.task.text)

/-- The loop invariant: the round counter stays within the budget and is
positive once the ledger is non-empty, the ledger is the concatenation of
the per-round results, and no task text repeats across rounds. -/
def LoopInv (maxRounds : Nat) (st : ExecutionState) : Prop :=
  st.executionRound ≤ maxRounds ∧
  (st.allTaskResults.isEmpty = false → 1 ≤ st.executionRound) ∧
  st.allTaskResults = (st.roundResults.map Prod.snd).flatten ∧
  RoundsDedup st.roundResults

end MCPGo

open MCPGo

/-- C1: in a streamed auto-execute run the loop keeps a captured-output
buffer, but ExecuteAndFeedback builds the final Generation without
assigning Content, so the returned content is the empty string and does
not reproduce what was streamed: after a run whose first generation is
the A-prefixed task block, whose tool result opens an MCP_HOST_RESULT
marker and whose second generation streams B, the buffer holds all of
that while the returned content is empty. -/
theorem C1_streamed_content_not_round_tripped :
    ExecuteAndFeedback scriptB hostAlwaysOk genC1 optsAutoStream = Except.ok runC1 ∧
    runC1.state.capturedOutput
      = "A" ++ taskBlock taskTextX ++ "<MCP_HOST_RESULT>" ++ "B" ∧
    runC1.finalGen.content = "" ∧
    runC1.finalGen.content ≠ runC1.state.capturedOutput :=
  ⟨rfl, rfl, rfl, by decide⟩

/-- C8 counterexample: a completed auto-execute run with budget 2 whose
generation carries a task block (hasToolCalls is true) that lies before a
closing think tag: extraction finds nothing, the loop exits after round 1
with an empty ledger, and the returned generationInfo holds no
mcp_execution_rounds key at all. -/
theorem C8_counterexample_rounds_key_absent :
    optsC8.mcpAutoExecute = true ∧
    effectiveMaxRounds optsC8 = 2 ∧
    hasToolCalls genC8 = true ∧
    ExecuteAndFeedback (scriptPlain "x") hostAlwaysOk genC8 optsC8 = Except.ok runC8 ∧
    getInfo runC8.finalGen.generationInfo "mcp_execution_rounds" = none :=
  ⟨rfl, rfl, rfl, rfl, rfl⟩

/-- C2 counterexample: with s1.t1 in disabledTools the model still emits a
task for it and the run dispatches ExecuteTool("s1", "t1", …): the
dispatch trace of the completed run names exactly the disabled tool. -/
theorem C2_counterexample_disabled_tool_dispatched :
    optsC2.mcpDisabledTools = ["s1.t1"] ∧
    ExecuteAndFeedback (scriptPlain "done") hostAlwaysOk genC4 optsC2 = Except.ok runC2 ∧
    runC2.state.dispatchTrace.map (fun dc => dc.server ++ "." ++ dc.tool) = ["s1.t1"] :=
  ⟨rfl, rfl, rfl⟩

/-- C5 counterexample: on content holding a well-formed entry followed by
an entry whose body is not JSON, the parser reports the error instead of
skipping it, processMCPTasksWithResults executes nothing, and the round
aborts with the error instead of proceeding. -/
theorem C5_counterexample_malformed_entry_aborts :
    (clientExtractMCPTasks contentC5 MCP_DEFAULT_TASK_TAG).err = some "invalid JSON" ∧
    (clientExtractMCPTasks contentC5 MCP_DEFAULT_TASK_TAG).tasks.length = 1 ∧
    (processMCPTasksWithResults hostAlwaysOk [] contentC5 MCP_DEFAULT_TASK_TAG).results = [] ∧
    executeTextModeRound hostAlwaysOk stC5 = Except.error "invalid JSON" :=
  ⟨rfl, rfl, rfl, rfl⟩

/-- C6: the parser decodes a tag body only through QwenToolCall, so the
MCP form (server, tool, args) — the very shape the default system prompt
instructs — decodes to an empty name and is rejected with an invalid-tool
error, while the native-style form (name, arguments) is accepted and
split on the dot. -/
theorem C6_mcp_form_rejected_native_form_accepted :
    extractMCPTasks contentMCPForm MCP_DEFAULT_TASK_TAG
      = { tasks := [], err := some "invalid tool name " } ∧
    extractMCPTasks contentQwenForm MCP_DEFAULT_TASK_TAG
      = { tasks := [{ server := "srv1", tool := "get_current_time", args := some [],
                      text := "\x7b\"name\":\"srv1.get_current_time\",\"arguments\":\x7b\x7d\x7d" }],
          err := none } :=
  ⟨rfl, rfl⟩

/-- C3 counterexample: a stdio session whose ping fails is disconnected,
yet EnsureConnection returns it as a success value (marked disconnected)
instead of surfacing a cannot-reconnect error. -/
theorem C3_counterexample_stale_session_without_error :
    connStdio1.type ≠ ConnectionType.sse ∧
    (EnsureConnection hostStdio1 "srv1" (PingOutcome.fail "dead") (TransportOutcome.ok 9 "x")).2.1
      = Except.ok { connStdio1 with connected := false } :=
  ⟨by decide, rfl⟩

/-- C10: WithMCPMaxToolExecutionRounds ignores a non-positive argument
(the options record is returned unchanged, so the default budget 5
survives option preparation), and the execution loop replaces a
non-positive stored budget by 3. -/
theorem C10_round_budget_guards (r : Int) (o : GenerateOptions) (hr : r ≤ 0) :
    WithMCPMaxToolExecutionRounds r o = o ∧
    DefaultGenerateOption.mcpMaxToolExecutionRounds = 5 ∧
    (prepareOptions [WithMCPMaxToolExecutionRounds r]).mcpMaxToolExecutionRounds = 5 ∧
    (o.mcpMaxToolExecutionRounds ≤ 0 → effectiveMaxRounds o = 3) := by
  have hnr : ¬ r > 0 := by omega
  have hsetter : WithMCPMaxToolExecutionRounds r o = o := by
    unfold WithMCPMaxToolExecutionRounds
    rw [if_neg hnr]
  have hdef : DefaultGenerateOption.mcpMaxToolExecutionRounds = 5 := by decide
  have hprep : (prepareOptions [WithMCPMaxToolExecutionRounds r]).mcpMaxToolExecutionRounds = 5 := by
    show (WithMCPMaxToolExecutionRounds r DefaultGenerateOption).mcpMaxToolExecutionRounds = 5
    unfold WithMCPMaxToolExecutionRounds
    rw [if_neg hnr]
    exact hdef
  have heff : o.mcpMaxToolExecutionRounds ≤ 0 → effectiveMaxRounds o = 3 := by
    intro hle
    unfold effectiveMaxRounds
    rw [if_pos hle]
  exact ⟨hsetter, hdef, hprep, heff⟩

/-- Removing a key from the registry makes its lookup fail. -/
theorem lookupConn_remove (l : List (String × ServerConnection)) (s : String) :
    lookupConn ⟨removeConn l s⟩ s = none := by
  unfold removeConn
  have hfind : (l.filter (fun kv => decide (kv.1 ≠ s))).find? (fun kv => decide (kv.1 = s)) = none := by
    rw [List.find?_eq_none]
    intro x hx
    have hne := (List.mem_filter.mp hx).2
    simp only [decide_eq_true_eq] at hne ⊢
    exact hne
  unfold lookupConn
  simp only [hfind, Option.map_none']

/-- C7: calling any connect operation with an already registered id fails
with the duplicate-id error, changes nothing (the registry, hence the
existing session, is untouched) and closes no transport. -/
theorem C7_duplicate_connect_rejected (h : MCPHost) (serverID url : String)
    (options : List String) (conn : ServerConnection)
    (t u : TransportOutcome) (s : StdioTransportOutcome)
    (hlook : lookupConn h serverID = some conn) :
    ConnectSSE h serverID url options t
      = ⟨h, Except.error ("connection with ID " ++ serverID ++ " already exists"), []⟩ ∧
    ConnectStdio h serverID s
      = ⟨h, Except.error ("connection with ID " ++ serverID ++ " already exists"), []⟩ ∧
    ConnectInProcess h serverID u
      = ⟨h, Except.error ("connection with ID " ++ serverID ++ " already exists"), []⟩ ∧
    lookupConn h serverID = some conn := by
  have hs : (lookupConn h serverID).isSome = true := by rw [hlook]; rfl
  refine ⟨?_, ?_, ?_, hlook⟩
  · unfold ConnectSSE
    rw [if_pos hs]
  · unfold ConnectStdio
    rw [if_pos hs]
  · unfold ConnectInProcess
    rw [if_pos hs]

/-- C7 witness: the three connect operations against a host that already
holds the id srv1. -/
theorem C7_duplicate_connect_rejected_witness :
    ConnectSSE hostStdio1 "srv1" "u" [] (TransportOutcome.ok 9 "x")
      = ⟨hostStdio1, Except.error ("connection with ID " ++ "srv1" ++ " already exists"), []⟩ ∧
    ConnectStdio hostStdio1 "srv1" (StdioTransportOutcome.ok 9 "x")
      = ⟨hostStdio1, Except.error ("connection with ID " ++ "srv1" ++ " already exists"), []⟩ ∧
    ConnectInProcess hostStdio1 "srv1" (TransportOutcome.ok 9 "x")
      = ⟨hostStdio1, Except.error ("connection with ID " ++ "srv1" ++ " already exists"), []⟩ ∧
    lookupConn hostStdio1 "srv1" = some connStdio1 :=
  C7_duplicate_connect_rejected hostStdio1 "srv1" "u" [] connStdio1
    (TransportOutcome.ok 9 "x") (TransportOutcome.ok 9 "x") (StdioTransportOutcome.ok 9 "x") rfl

/-- C3 amended: EnsureConnection returns the registered session on ping
success; on ping failure it always disconnects the session (removal plus
transport close); an SSE session is then reconnected under the same id
with the stored URL and options, a reconnect failure surfacing the
cannot-reconnect error — but a non-SSE session is returned as a success
value, stale and marked disconnected, with no error. -/
theorem C3_amended_ensure_connection (h : MCPHost) (serverID : String)
    (conn : ServerConnection) (reconnect : TransportOutcome) (msg info : String) (client : Nat)
    (hlook : lookupConn h serverID = some conn) (hid : conn.serverID = serverID) :
    EnsureConnection h serverID PingOutcome.ok reconnect = (h, Except.ok conn, []) ∧
    (conn.type ≠ ConnectionType.sse →
      EnsureConnection h serverID (PingOutcome.fail msg) reconnect
        = (⟨removeConn h.connections serverID⟩,
           Except.ok { conn with connected := false }, [HostEvent.closed conn.client])) ∧
    (conn.type = ConnectionType.sse → reconnect = TransportOutcome.ok client info →
      EnsureConnection h serverID (PingOutcome.fail msg) reconnect
        = (⟨removeConn h.connections serverID
              ++ [(serverID, { type := ConnectionType.sse, client := client,
                               serverID := serverID, options := conn.options,
                               baseURL := conn.baseURL, serverInfo := info,
                               connected := true })]⟩,
           Except.ok { type := ConnectionType.sse, client := client, serverID := serverID,
                       options := conn.options, baseURL := conn.baseURL,
                       serverInfo := info, connected := true },
           [HostEvent.closed conn.client])) ∧
    (conn.type = ConnectionType.sse → transportOk reconnect = false →
      (EnsureConnection h serverID (PingOutcome.fail msg) reconnect).2.1
        = Except.error ("can not reconnect with ID " ++ serverID)) := by
  obtain ⟨ty, cl, sid, opts0, url0, inf0, con0⟩ := conn
  simp only at hid
  subst hid
  have hrm := lookupConn_remove h.connections sid
  refine ⟨?_, ?_, ?_, ?_⟩
  · simp only [EnsureConnection, hlook]
  · intro hty
    cases ty with
    | sse => exact absurd rfl hty
    | stdio => simp [EnsureConnection, hlook, DisconnectServer]
    | inProcess => simp [EnsureConnection, hlook, DisconnectServer]
  · intro hty hrec
    subst hty
    subst hrec
    simp [EnsureConnection, hlook, DisconnectServer, ConnectSSE, hrm]
  · intro hty hfail
    subst hty
    cases reconnect with
    | ok c i => simp [transportOk] at hfail
    | createErr m => simp [EnsureConnection, hlook, DisconnectServer, ConnectSSE, hrm]
    | startErr c m => simp [EnsureConnection, hlook, DisconnectServer, ConnectSSE, hrm]
    | handshakeErr c m => simp [EnsureConnection, hlook, DisconnectServer, ConnectSSE, hrm]

/-- C3 amended witness: the SSE fixture with a succeeding reconnect, and
the behaviour bundle instantiated at it. -/
theorem C3_amended_ensure_connection_witness :
    EnsureConnection hostSSE1 "srv2" PingOutcome.ok (TransportOutcome.ok 9 "x")
      = (hostSSE1, Except.ok connSSE1, []) ∧
    (connSSE1.type ≠ ConnectionType.sse →
      EnsureConnection hostSSE1 "srv2" (PingOutcome.fail "dead") (TransportOutcome.ok 9 "x")
        = (⟨removeConn hostSSE1.connections "srv2"⟩,
           Except.ok { connSSE1 with connected := false }, [HostEvent.closed connSSE1.client])) ∧
    (connSSE1.type = ConnectionType.sse →
      TransportOutcome.ok 9 "x" = TransportOutcome.ok 9 "x" →
      EnsureConnection hostSSE1 "srv2" (PingOutcome.fail "dead") (TransportOutcome.ok 9 "x")
        = (⟨removeConn hostSSE1.connections "srv2"
              ++ [("srv2", { type := ConnectionType.sse, client := 9,
                             serverID := "srv2", options := connSSE1.options,
                             baseURL := connSSE1.baseURL, serverInfo := "x",
                             connected := true })]⟩,
           Except.ok { type := ConnectionType.sse, client := 9, serverID := "srv2",
                       options := connSSE1.options, baseURL := connSSE1.baseURL,
                       serverInfo := "x", connected := true },
           [HostEvent.closed connSSE1.client])) ∧
    (connSSE1.type = ConnectionType.sse →
      transportOk (TransportOutcome.ok 9 "x") = false →
      (EnsureConnection hostSSE1 "srv2" (PingOutcome.fail "dead") (TransportOutcome.ok 9 "x")).2.1
        = Except.error ("can not reconnect with ID " ++ "srv2")) :=
  C3_amended_ensure_connection hostSSE1 "srv2" connSSE1 (TransportOutcome.ok 9 "x")
    "dead" "x" 9 rfl rfl

theorem mkTaskResult_task (task : MCPTask) (o : TaskOutcome) :
    (mkTaskResult task o).task = task := by
  cases o <;> rfl

/-- Every record runTasks produces comes from a non-skipped task of the
round, dispatched on the host. -/
theorem runTasks_mem_spec (host : ExecOracle) (ex : List String) :
    ∀ (tasks : List MCPTask) (tr : TaskResult), tr ∈ runTasks host ex tasks →
      ∃ task, task ∈ tasks ∧ ex.contains task.text = false ∧
        tr = mkTaskResult task (host ⟨task.server, task.tool, task.args⟩) := by
  intro tasks
  induction tasks with
  | nil =>
    intro tr h
    simp [runTasks] at h
  | cons t ts ih =>
    intro tr h
    rw [runTasks] at h
    cases hc : ex.contains t.text with
    | true =>
      rw [hc] at h
      simp only [if_true] at h
      obtain ⟨task, hmem, hfresh, heq⟩ := ih tr h
      exact ⟨task, List.mem_cons_of_mem _ hmem, hfresh, heq⟩
    | false =>
      rw [hc] at h
      simp only [Bool.false_eq_true, if_false] at h
      rcases List.mem_cons.mp h with h | h
      · exact ⟨t, List.mem_cons_self _ _, hc, h⟩
      · obtain ⟨task, hmem, hfresh, heq⟩ := ih tr h
        exact ⟨task, List.mem_cons_of_mem _ hmem, hfresh, heq⟩

/-- Either the extraction of a round succeeded or the round produced no
result records. -/
theorem processMCP_cases (host : ExecOracle) (ledger : List TaskResult)
    (content optTag : String) :
    (processMCPTasksWithResults host ledger content optTag).err = none ∨
    (processMCPTasksWithResults host ledger content optTag).results = [] := by
  set tag := (if optTag ≠ "" then optTag else MCP_DEFAULT_TASK_TAG) with htag
  cases h1 : (clientExtractMCPTasks content tag).err with
  | some e =>
    right
    simp only [processMCPTasksWithResults]
    rw [← htag, h1]
  | none =>
    cases h2 : (clientExtractMCPTasks content "tools").err with
    | some e =>
      right
      simp only [processMCPTasksWithResults]
      rw [← htag, h1, h2]
    | none =>
      left
      simp only [processMCPTasksWithResults]
      rw [← htag, h1, h2]
      dsimp only
      split <;> rfl

/-- Every record a round produces comes from a freshly dispatched task:
its text is not in the ledger and its fields are the dispatch outcome. -/
theorem processMCP_results_spec (host : ExecOracle) (ledger : List TaskResult)
    (content optTag : String) :
    ∀ tr ∈ (processMCPTasksWithResults host ledger content optTag).results,
      ∃ task, (ledger.map (fun x => x.task.text)).contains task.text = false ∧
        tr = mkTaskResult task (host ⟨task.server, task.tool, task.args⟩) := by
  intro tr htr
  set tag := (if optTag ≠ "" then optTag else MCP_DEFAULT_TASK_TAG) with htag
  cases h1 : (clientExtractMCPTasks content tag).err with
  | some e =>
    simp only [processMCPTasksWithResults] at htr
    rw [← htag, h1] at htr
    simp at htr
  | none =>
    cases h2 : (clientExtractMCPTasks content "tools").err with
    | some e =>
      simp only [processMCPTasksWithResults] at htr
      rw [← htag, h1, h2] at htr
      simp at htr
    | none =>
      simp only [processMCPTasksWithResults] at htr
      rw [← htag, h1, h2] at htr
      dsimp only at htr
      split at htr
      · simp at htr
      · obtain ⟨task, _, hfresh, heq⟩ := runTasks_mem_spec host _ _ tr htr
        exact ⟨task, hfresh, heq⟩

/-- C9: every task result of a round has exactly one outcome field
populated — the error string alone after a failed dispatch, the result
value alone after a successful one — provided the host's error strings
are non-empty (fmt-built Go errors are). -/
theorem C9_task_result_exactly_one_outcome (host : ExecOracle) (ledger : List TaskResult)
    (content optTag : String) (tr : TaskResult)
    (hhost : ∀ dc msg, host dc = TaskOutcome.err msg → msg ≠ "")
    (htr : tr ∈ (processMCPTasksWithResults host ledger content optTag).results) :
    (tr.error = "" ∧ tr.result.isSome = true) ∨ (tr.error ≠ "" ∧ tr.result = none) := by
  obtain ⟨task, -, heq⟩ := processMCP_results_spec host ledger content optTag tr htr
  cases hout : host ⟨task.server, task.tool, task.args⟩ with
  | ok content2 =>
    left
    rw [heq, hout]
    exact ⟨rfl, rfl⟩
  | err msg =>
    right
    rw [heq, hout]
    exact ⟨hhost _ msg hout, rfl⟩

/-- C9 witness: the single record of a round on the always-failing host. -/
theorem C9_task_result_exactly_one_outcome_witness :
    (trC9.error = "" ∧ trC9.result.isSome = true) ∨ (trC9.error ≠ "" ∧ trC9.result = none) :=
  C9_task_result_exactly_one_outcome hostAlwaysErr [] (taskBlock taskTextX) "MCP_HOST_TASK" trC9
    (by intro dc msg h; cases h; decide)
    (List.Mem.head _)

/-- C5 amended: a malformed entry does not get skipped: extraction
surfaces its error, the round produces and dispatches nothing, and
executeTextModeRound aborts with that error. -/
theorem C5_amended_parse_error_aborts_round (host : ExecOracle) (st : ExecutionState) (e : String)
    (herr : (processMCPTasksWithResults host st.allTaskResults st.currentGen.content
        st.opts.mcpTaskTag).err = some e) :
    executeTextModeRound host st = Except.error e ∧
    (processMCPTasksWithResults host st.allTaskResults st.currentGen.content
      st.opts.mcpTaskTag).results = [] := by
  constructor
  · simp only [executeTextModeRound, herr]
  · refine (processMCP_cases host st.allTaskResults st.currentGen.content
      st.opts.mcpTaskTag).resolve_left ?_
    rw [herr]
    simp

/-- C5 amended witness: the fixture round holding a well-formed entry and
then a non-JSON entry. -/
theorem C5_amended_parse_error_aborts_round_witness :
    executeTextModeRound hostAlwaysOk stC5 = Except.error "invalid JSON" ∧
    (processMCPTasksWithResults hostAlwaysOk stC5.allTaskResults stC5.currentGen.content
      stC5.opts.mcpTaskTag).results = [] :=
  C5_amended_parse_error_aborts_round hostAlwaysOk stC5 "invalid JSON" rfl

/-- Elements produced by a foldl step satisfying a predicate stay inside
it. -/
theorem foldl_preserve {α β : Type} (f : List β → α → List β) (P : β → Prop)
    (hf : ∀ acc a x, (∀ y ∈ acc, P y) → x ∈ f acc a → P x) :
    ∀ (l : List α) (acc : List β), (∀ y ∈ acc, P y) → ∀ x ∈ l.foldl f acc, P x := by
  intro l
  induction l with
  | nil => intro acc hacc x hx; exact hacc x hx
  | cons a l ih =>
    intro acc hacc x hx
    rw [List.foldl_cons] at hx
    exact ih (f acc a) (fun y hy => hf acc a y hacc hy) x hx

/-- C2 amended: disabledTools is enforced in the catalog only — no tool
whose qualified name is disabled ever appears in createMCPTools' output
(the dispatch path performs no such check, as the counterexample shows). -/
theorem C2_amended_catalog_filters_disabled (serverIDs : List String)
    (listTools : String → Except String (List MCPToolDef)) (disabledTools : List String)
    (t : Tool) (ht : t ∈ createMCPTools serverIDs listTools disabledTools) :
    disabledTools.contains t.function.name = false := by
  unfold createMCPTools at ht
  refine foldl_preserve _ (fun x => disabledTools.contains x.function.name = false)
    ?_ serverIDs [] (by intro y hy; cases hy) t ht
  intro acc a x hacc hx
  cases hts : listTools a with
  | error m =>
    rw [hts] at hx
    exact hacc x hx
  | ok ts =>
    rw [hts] at hx
    rcases List.mem_append.mp hx with hx | hx
    · exact hacc x hx
    · obtain ⟨td, htd, hsome⟩ := List.mem_filterMap.mp hx
      simp only at hsome
      cases hdis : disabledTools.contains (a ++ "." ++ td.name) with
      | true =>
        rw [hdis] at hsome
        simp at hsome
      | false =>
        rw [hdis] at hsome
        simp only [Bool.false_eq_true, if_false, Option.some.injEq] at hsome
        rw [← hsome]
        exact hdis

/-- C2 amended witness: with s1.t1 disabled the fixture catalog contains
only the s1.t2 descriptor, which is not disabled. -/
theorem C2_amended_catalog_filters_disabled_witness :
    (["s1.t1"] : List String).contains catalogToolT2.function.name = false :=
  C2_amended_catalog_filters_disabled ["s1"] listToolsFix ["s1.t1"] catalogToolT2
    (List.Mem.head _)

/-- Every record of a round carries a task text absent from the ledger. -/
theorem processMCP_results_fresh (host : ExecOracle) (ledger : List TaskResult)
    (content optTag : String) :
    ∀ tr ∈ (processMCPTasksWithResults host ledger content optTag).results,
      (ledger.map (fun x => x.task.text)).contains tr.task.text = false := by
  intro tr htr
  obtain ⟨task, hfresh, heq⟩ := processMCP_results_spec host ledger content optTag tr htr
  rw [heq, mkTaskResult_task]
  exact hfresh

theorem recordStreamChunks_ghost (st : ExecutionState) (chunks : List String) :
    (recordStreamChunks st chunks).executionRound = st.executionRound ∧
    (recordStreamChunks st chunks).allTaskResults = st.allTaskResults ∧
    (recordStreamChunks st chunks).roundResults = st.roundResults := by
  unfold recordStreamChunks
  split <;> exact ⟨rfl, rfl, rfl⟩

theorem streamTextModeResults_ghost (st : ExecutionState) (rs : List TaskResult) :
    (streamTextModeResults st rs).executionRound = st.executionRound ∧
    (streamTextModeResults st rs).allTaskResults = st.allTaskResults ∧
    (streamTextModeResults st rs).roundResults = st.roundResults := by
  unfold streamTextModeResults
  dsimp only
  split <;> exact ⟨rfl, rfl, rfl⟩

theorem streamFunctionCallResults_ghost (st : ExecutionState) :
    (streamFunctionCallResults st).executionRound = st.executionRound ∧
    (streamFunctionCallResults st).allTaskResults = st.allTaskResults ∧
    (streamFunctionCallResults st).roundResults = st.roundResults := by
  unfold streamFunctionCallResults
  dsimp only
  split <;> exact ⟨rfl, rfl, rfl⟩

/-- A text-mode round leaves the round counter alone and either records
nothing or appends one batch of fresh results to both the ledger and the
per-round log. -/
theorem executeTextModeRound_step (host : ExecOracle) (s : ExecutionState)
    (b : Bool) (st2 : ExecutionState)
    (h : executeTextModeRound host s = Except.ok (b, st2)) :
    st2.executionRound = s.executionRound ∧
    ((st2.allTaskResults = s.allTaskResults ∧ st2.roundResults = s.roundResults) ∨
      ∃ rs, (∀ tr ∈ rs,
          (s.allTaskResults.map (fun x => x.task.text)).contains tr.task.text = false) ∧
        st2.allTaskResults = s.allTaskResults ++ rs ∧
        st2.roundResults = s.roundResults ++ [(s.executionRound, rs)]) := by
  cases herr : (processMCPTasksWithResults host s.allTaskResults s.currentGen.content
      s.opts.mcpTaskTag).err with
  | some e =>
    simp only [executeTextModeRound] at h
    rw [herr] at h
    cases h
  | none =>
    simp only [executeTextModeRound] at h
    rw [herr] at h
    dsimp only at h
    split at h
    · injection h with hp
      injection hp with hb hst
      subst hst
      exact ⟨rfl, Or.inl ⟨rfl, rfl⟩⟩
    · have hfresh := processMCP_results_fresh host s.allTaskResults s.currentGen.content
        s.opts.mcpTaskTag
      split at h
      · injection h with hp
        injection hp with hb hst
        subst hst
        obtain ⟨hr, ha, hrr⟩ := streamTextModeResults_ghost _ _
        refine ⟨hr, Or.inr ⟨_, hfresh, ?_, ?_⟩⟩
        · rw [ha]
        · rw [hrr]
      · injection h with hp
        injection hp with hb hst
        subst hst
        exact ⟨rfl, Or.inr ⟨_, hfresh, rfl, rfl⟩⟩

/-- A function-call round touches neither the ledger nor the per-round
log, and leaves the round counter alone. -/
theorem executeFunctionCallRound_step (host : ExecOracle) (s : ExecutionState)
    (b : Bool) (st2 : ExecutionState)
    (h : executeFunctionCallRound host s = Except.ok (b, st2)) :
    st2.executionRound = s.executionRound ∧
    st2.allTaskResults = s.allTaskResults ∧ st2.roundResults = s.roundResults := by
  simp only [executeFunctionCallRound] at h
  dsimp only at h
  split at h
  · injection h with hp
    injection hp with hb hst
    subst hst
    exact ⟨rfl, rfl, rfl⟩
  · split at h
    · injection h with hp
      injection hp with hb hst
      subst hst
      obtain ⟨hr, ha, hrr⟩ := streamFunctionCallResults_ghost _
      exact ⟨hr, ha, hrr⟩
    · injection h with hp
      injection hp with hb hst
      subst hst
      exact ⟨rfl, rfl, rfl⟩

theorem executeRound_step (host : ExecOracle) (s : ExecutionState)
    (b : Bool) (st2 : ExecutionState)
    (h : executeRound host s = Except.ok (b, st2)) :
    st2.executionRound = s.executionRound ∧
    ((st2.allTaskResults = s.allTaskResults ∧ st2.roundResults = s.roundResults) ∨
      ∃ rs, (∀ tr ∈ rs,
          (s.allTaskResults.map (fun x => x.task.text)).contains tr.task.text = false) ∧
        st2.allTaskResults = s.allTaskResults ++ rs ∧
        st2.roundResults = s.roundResults ++ [(s.executionRound, rs)]) := by
  unfold executeRound at h
  split at h
  · exact executeTextModeRound_step host s b st2 h
  · obtain ⟨hr, ha, hrr⟩ := executeFunctionCallRound_step host s b st2 h
    exact ⟨hr, Or.inl ⟨ha, hrr⟩⟩

theorem prepareNextRound_ghost (script : LLMScript) (s st2 : ExecutionState)
    (h : prepareNextRound script s = Except.ok st2) :
    st2.executionRound = s.executionRound ∧
    st2.allTaskResults = s.allTaskResults ∧ st2.roundResults = s.roundResults := by
  unfold prepareNextRound at h
  cases hs : script s.executionRound with
  | error e => rw [hs] at h; cases h
  | ok p =>
    rw [hs] at h
    dsimp only at h
    injection h with h2
    subst h2
    obtain ⟨hr, ha, hrr⟩ := recordStreamChunks_ghost s p.2
    exact ⟨hr, ha, hrr⟩

theorem getFinalResult_ghost (script : LLMScript) (s st2 : ExecutionState)
    (h : getFinalResult script s = Except.ok st2) :
    st2.executionRound = s.executionRound ∧
    st2.allTaskResults = s.allTaskResults ∧ st2.roundResults = s.roundResults := by
  unfold getFinalResult at h
  cases hs : script s.executionRound with
  | error e => rw [hs] at h; cases h
  | ok p =>
    rw [hs] at h
    dsimp only at h
    injection h with h2
    subst h2
    obtain ⟨hr, ha, hrr⟩ := recordStreamChunks_ghost s p.2
    exact ⟨hr, ha, hrr⟩

/-- One loop iteration preserves the loop invariant. -/
theorem step_preserves_inv (host : ExecOracle) (maxRounds : Nat)
    (st st2 : ExecutionState) (b : Bool)
    (hlt : st.executionRound < maxRounds) (hinv : LoopInv maxRounds st)
    (h : executeRound host { st with executionRound := st.executionRound + 1 }
      = Except.ok (b, st2)) :
    LoopInv maxRounds st2 := by
  obtain ⟨hle, hpos, hflat, hpair⟩ := hinv
  obtain ⟨hround, hcase⟩ := executeRound_step host _ b st2 h
  dsimp only at hround hcase
  have hr2 : st2.executionRound = st.executionRound + 1 := hround
  refine ⟨by omega, by intro _; omega, ?_, ?_⟩
  · rcases hcase with ⟨ha, hrr⟩ | ⟨rs, hfresh, ha, hrr⟩
    · rw [ha, hrr]
      exact hflat
    · rw [ha, hrr]
      simp only [List.map_append, List.flatten_append]
      rw [hflat]
      simp
  · rcases hcase with ⟨ha, hrr⟩ | ⟨rs, hfresh, ha, hrr⟩
    · rw [hrr]
      exact hpair
    · rw [hrr]
      refine List.pairwise_append.mpr ⟨hpair, List.pairwise_singleton _ _, ?_⟩
      intro a hmem p hp
      rcases List.mem_singleton.mp hp with rfl
      intro u hu t htm
      have hufl : u ∈ st.allTaskResults := by
        rw [hflat]
        exact List.mem_flatten.mpr ⟨a.2, List.mem_map_of_mem Prod.snd hmem, hu⟩
      have hut : u.task.text ∈ st.allTaskResults.map (fun x => x.task.text) :=
        List.mem_map_of_mem _ hufl
      have hcontains := List.elem_eq_true_of_mem hut
      have hfr := hfresh t htm
      intro hteq
      rw [hteq] at hfr
      simp only [List.contains] at hfr
      rw [hcontains] at hfr
      cases hfr

/-- The loop preserves the loop invariant, whatever the fuel. -/
theorem executeToolsLoopGo_inv (script : LLMScript) (host : ExecOracle) (maxRounds : Nat) :
    ∀ (fuel : Nat) (st st2 : ExecutionState), LoopInv maxRounds st →
      executeToolsLoopGo script host maxRounds fuel st = Except.ok st2 →
      LoopInv maxRounds st2 := by
  intro fuel
  induction fuel with
  | zero =>
    intro st st2 hinv h
    injection h with h2
    exact h2 ▸ hinv
  | succ n ih =>
    intro st st2 hinv h
    rw [executeToolsLoopGo] at h
    split at h
    case isTrue hlt =>
      dsimp only at h
      cases hexec : executeRound host { st with executionRound := st.executionRound + 1 } with
      | error e => rw [hexec] at h; cases h
      | ok p =>
        obtain ⟨hasExec, stm⟩ := p
        rw [hexec] at h
        dsimp only at h
        have hinv2 : LoopInv maxRounds stm :=
          step_preserves_inv host maxRounds st stm hasExec hlt hinv hexec
        split at h
        · injection h with h2
          exact h2 ▸ hinv2
        · split at h
          · obtain ⟨hr, ha, hrr⟩ := getFinalResult_ghost script stm st2 h
            exact ⟨by rw [hr]; exact hinv2.1, by rw [ha, hr]; exact hinv2.2.1,
              by rw [ha, hrr]; exact hinv2.2.2.1, by rw [hrr]; exact hinv2.2.2.2⟩
          · cases hprep : prepareNextRound script stm with
            | error e => rw [hprep] at h; cases h
            | ok st3 =>
              rw [hprep] at h
              obtain ⟨hr, ha, hrr⟩ := prepareNextRound_ghost script stm st3 hprep
              have hinv3 : LoopInv maxRounds st3 :=
                ⟨by rw [hr]; exact hinv2.1, by rw [ha, hr]; exact hinv2.2.1,
                  by rw [ha, hrr]; exact hinv2.2.2.1, by rw [hrr]; exact hinv2.2.2.2⟩
              exact ih st3 st2 hinv3 h
    case isFalse =>
      injection h with h2
      exact h2 ▸ hinv

theorem loopInv_init (gen : Generation) (opts : GenerateOptions) (maxRounds : Nat) :
    LoopInv maxRounds (NewExecutionState gen opts) := by
  refine ⟨Nat.zero_le _, ?_, rfl, List.Pairwise.nil⟩
  intro hcontr
  simp [NewExecutionState] at hcontr

/-- The invariant holds for the final state of every completed run. -/
theorem executeAndFeedback_inv (script : LLMScript) (host : ExecOracle)
    (gen : Generation) (opts : GenerateOptions) (r : RunResult)
    (h : ExecuteAndFeedback script host gen opts = Except.ok r) :
    LoopInv (effectiveMaxRounds opts) r.state := by
  unfold ExecuteAndFeedback at h
  split at h
  · injection h with h2
    exact h2 ▸ loopInv_init gen opts (effectiveMaxRounds opts)
  · cases hloop : executeToolsLoop script host (NewExecutionState gen opts) with
    | error e => rw [hloop] at h; cases h
    | ok stf =>
      rw [hloop] at h
      injection h with h2
      unfold executeToolsLoop at hloop
      have := executeToolsLoopGo_inv script host (effectiveMaxRounds opts)
        (effectiveMaxRounds opts + 1) (NewExecutionState gen opts) stf
        (loopInv_init gen opts (effectiveMaxRounds opts)) hloop
      rw [← h2]
      exact this

/-- C4: in every completed run the per-round dispatch log is pairwise
text-disjoint across rounds: a task executed in some round has a text
distinct from the text of every task executed in any earlier round (a
task whose text is already in the ledger is skipped without dispatch, so
it never reaches the log). -/
theorem C4_dedup_across_rounds (script : LLMScript) (host : ExecOracle)
    (gen : Generation) (opts : GenerateOptions) (r : RunResult)
    (hrun : ExecuteAndFeedback script host gen opts = Except.ok r) :
    RoundsDedup r.state.roundResults :=
  (executeAndFeedback_inv script host gen opts r hrun).2.2.2

/-- C4 witness: the scripted two-round run in which round 2 re-emits the
round-1 task next to a new one, dispatching only the new one. -/
theorem C4_dedup_across_rounds_witness : RoundsDedup runC4.state.roundResults :=
  C4_dedup_across_rounds scriptC4 hostAlwaysOk genC4 optsAuto runC4 rfl

/-- C8 amended: whenever a run completes with a non-empty ledger (some
task was actually executed, which in this code happens only in TextMode),
the returned generationInfo carries mcp_execution_rounds, and its value —
the final round counter — lies between 1 and the effective round budget.
Runs whose tool requests all vanish at extraction, and FunctionCallMode
runs, carry no such key (see the counterexample). -/
theorem C8_amended_rounds_key_in_range (script : LLMScript) (host : ExecOracle)
    (gen : Generation) (opts : GenerateOptions) (r : RunResult)
    (hrun : ExecuteAndFeedback script host gen opts = Except.ok r)
    (hres : r.state.allTaskResults.isEmpty = false) :
    getInfo r.finalGen.generationInfo "mcp_execution_rounds"
      = some (GenInfoVal.num (r.state.executionRound : Int)) ∧
    1 ≤ r.state.executionRound ∧
    r.state.executionRound ≤ effectiveMaxRounds opts := by
  have hinv := executeAndFeedback_inv script host gen opts r hrun
  refine ⟨?_, hinv.2.1 hres, hinv.1⟩
  unfold ExecuteAndFeedback at hrun
  split at hrun
  · injection hrun with h2
    rw [← h2] at hres
    simp [NewExecutionState] at hres
  · cases hloop : executeToolsLoop script host (NewExecutionState gen opts) with
    | error e => rw [hloop] at hrun; cases hrun
    | ok stf =>
      rw [hloop] at hrun
      injection hrun with h2
      rw [← h2] at hres ⊢
      dsimp only at hres ⊢
      unfold mergeGenerationInfo
      rw [if_pos (by rw [hres]; rfl)]
      rfl

/-- C8 amended witness: the streamed fixture run executed one task and
finished at round 2 within the default budget 5. -/
theorem C8_amended_rounds_key_in_range_witness :
    getInfo runC1.finalGen.generationInfo "mcp_execution_rounds"
      = some (GenInfoVal.num (runC1.state.executionRound : Int)) ∧
    1 ≤ runC1.state.executionRound ∧
    runC1.state.executionRound ≤ effectiveMaxRounds optsAutoStream :=
  C8_amended_rounds_key_in_range scriptB hostAlwaysOk genC1 optsAutoStream runC1 rfl rfl

/-- C10 witness: the setter applied with 0 to options storing a negative
budget, which the loop coerces to 3. -/
theorem C10_round_budget_guards_witness :
    WithMCPMaxToolExecutionRounds 0 optsNeg = optsNeg ∧
    DefaultGenerateOption.mcpMaxToolExecutionRounds = 5 ∧
    (prepareOptions [WithMCPMaxToolExecutionRounds 0]).mcpMaxToolExecutionRounds = 5 ∧
    (optsNeg.mcpMaxToolExecutionRounds ≤ 0 → effectiveMaxRounds optsNeg = 3) :=
  C10_round_budget_guards 0 optsNeg (by decide)
